import Mathlib

/-!
Shallow embedding of the scan subsystem of the oar-fm-application-layer
repository (src/app/api/scan.py and src/helpers.py), together with a model
of the external collaborators it uses at their documented boundaries:

* the local file system read by `helpers.calculate_checksum` is a partial
  map from paths to byte contents (`none` = unreadable, an `IOError` in
  Python);
* `hashlib.sha256` is modelled by an accumulating hasher whose final
  `hexdigest` is a concrete SHA-256 implementation over the accumulated
  bytes;
* the durable report store accessed through `app.utils.files`
  (`post_file` / `put_file` / `delete_file`), whose source is not part of
  the repository snapshot, is modelled from the spec as a path-keyed
  overwrite store ("Durable report store: write(space_id, scan_id, content)
  ... its file location is deterministic from scan_id");
* ISO-8601 timestamp strings, compared in the Python code after
  `datetime.fromisoformat(...).replace(tzinfo=None)`, are represented by
  natural numbers through the order-preserving identification of a
  timestamp with its offset from the epoch; the missing-key default
  epoch timestamp string becomes `0`.
-/

namespace OarFM

/-- Byte strings: each element is a byte value (kept below 256 by
construction for bytes originating in files). -/
abbrev Bytes := List Nat

/-- The local filesystem seen by `calculate_checksum`: `none` means the
path cannot be opened for reading (Python raises `IOError`). -/
abbrev FileSys := String → Option Bytes

/-- The durable report store (modelled from the spec): an association list
from file path to text content, newest binding first. -/
abbrev Store := List (String × String)

/-- Python exceptions that the embedded code can raise. -/
inductive PyError where
  | ioError (path : String)
  | valueError (msg : String)
deriving DecidableEq

instance {ε α : Type} [DecidableEq ε] [DecidableEq α] :
    DecidableEq (Except ε α)
  | .error a, .error b =>
      if h : a = b then .isTrue (by rw [h])
      else .isFalse (by intro hc; cases hc; exact h rfl)
  | .error _, .ok _ => .isFalse (by intro hc; cases hc)
  | .ok _, .error _ => .isFalse (by intro hc; cases hc)
  | .ok a, .ok b =>
      if h : a = b then .isTrue (by rw [h])
      else .isFalse (by intro hc; cases hc; exact h rfl)

/-- One element of the `contents` list of `content_md` (scan.py, `ScanFiles.post`):
`fileid`, `path`, `size`, `last_modified`, `resource_type`, `scan_errors`,
plus the optional `checksum` / `last_checksum_date` keys that `slow_scan`
may add.  Timestamps are epoch offsets (see module docstring). -/
structure Entry where
  fileid : String
  path : String
  size : Nat
  last_modified : Nat
  resource_type : String
  scan_errors : List String
  checksum : Option String
  last_checksum_date : Option Nat
deriving DecidableEq

/-- The top-level `content_md` dictionary built in `ScanFiles.post`. -/
structure ContentMd where
  space_id : String
  scan_id : String
  scan_time : Nat
  scan_datetime : String
  user_dir : String
  fm_system_path : String
  contents : List Entry
  last_modified : String
  is_complete : Bool
deriving DecidableEq

/-! ## SHA-256 (model of `hashlib.sha256`)

A direct executable implementation of FIPS 180-4 SHA-256 over byte lists,
with 32-bit words as naturals reduced `% 2^32`. -/

/-- 2^32, the word modulus. -/
def M32 : Nat := 4294967296

/-- Rotate the 32-bit word `x` right by `n` positions. -/
def rotr (n x : Nat) : Nat := ((x >>> n) ||| (x <<< (32 - n))) % M32

/-- Bitwise complement of a 32-bit word. -/
def compl32 (x : Nat) : Nat := (M32 - 1) ^^^ x

/-- SHA-256 `Ch` function. -/
def chF (x y z : Nat) : Nat := (x &&& y) ^^^ (compl32 x &&& z)

/-- SHA-256 `Maj` function. -/
def majF (x y z : Nat) : Nat := (x &&& y) ^^^ (x &&& z) ^^^ (y &&& z)

/-- SHA-256 `Σ0`. -/
def bigSigma0 (x : Nat) : Nat := rotr 2 x ^^^ rotr 13 x ^^^ rotr 22 x

/-- SHA-256 `Σ1`. -/
def bigSigma1 (x : Nat) : Nat := rotr 6 x ^^^ rotr 11 x ^^^ rotr 25 x

/-- SHA-256 `σ0`. -/
def smallSigma0 (x : Nat) : Nat := rotr 7 x ^^^ rotr 18 x ^^^ (x >>> 3)

/-- SHA-256 `σ1`. -/
def smallSigma1 (x : Nat) : Nat := rotr 17 x ^^^ rotr 19 x ^^^ (x >>> 10)

/-- The 64 SHA-256 round constants (FIPS 180-4, in decimal). -/
def shaK : List Nat :=
  [1116352408, 1899447441, 3049323471, 3921009573, 961987163,
   1508970993, 2453635748, 2870763221, 3624381080, 310598401,
   607225278, 1426881987, 1925078388, 2162078206, 2614888103,
   3248222580, 3835390401, 4022224774, 264347078, 604807628,
   770255983, 1249150122, 1555081692, 1996064986, 2554220882,
   2821834349, 2952996808, 3210313671, 3336571891, 3584528711,
   113926993, 338241895, 666307205, 773529912, 1294757372,
   1396182291, 1695183700, 1986661051, 2177026350, 2456956037,
   2730485921, 2820302411, 3259730800, 3345764771, 3516065817,
   3600352804, 4094571909, 275423344, 430227734, 506948616,
   659060556, 883997877, 958139571, 1322822218, 1537002063,
   1747873779, 1955562222, 2024104815, 2227730452, 2361852424,
   2428436474, 2756734187, 3204031479, 3329325298]

/-- The initial SHA-256 hash value (FIPS 180-4, in decimal). -/
def shaH0 : List Nat :=
  [1779033703, 3144134277, 1013904242, 2773480762,
   1359893119, 2600822924, 528734635, 1541459225]

/-- Extend a 16-word block schedule by `k` further words. -/
def extendSchedule : Nat → List Nat → List Nat
  | 0, ws => ws
  | k + 1, ws =>
      let n := ws.length
      let t := (smallSigma1 (ws.getD (n - 2) 0) + ws.getD (n - 7) 0 +
                smallSigma0 (ws.getD (n - 15) 0) + ws.getD (n - 16) 0) % M32
      extendSchedule k (ws ++ [t])

/-- The eight working variables of the compression loop. -/
structure SHAState where
  a : Nat
  b : Nat
  c : Nat
  d : Nat
  e : Nat
  f : Nat
  g : Nat
  h : Nat

/-- One round of the SHA-256 compression function. -/
def compressRound (st : SHAState) (k w : Nat) : SHAState :=
  let t1 := (st.h + bigSigma1 st.e + chF st.e st.f st.g + k + w) % M32
  let t2 := (bigSigma0 st.a + majF st.a st.b st.c) % M32
  ⟨(t1 + t2) % M32, st.a, st.b, st.c, (st.d + t1) % M32, st.e, st.f, st.g⟩

/-- Process one 16-word message block, updating the running hash. -/
def compressBlock (hs block : List Nat) : List Nat :=
  let ws := extendSchedule 48 block
  let st0 : SHAState :=
    ⟨hs.getD 0 0, hs.getD 1 0, hs.getD 2 0, hs.getD 3 0,
     hs.getD 4 0, hs.getD 5 0, hs.getD 6 0, hs.getD 7 0⟩
  let st := (shaK.zip ws).foldl (fun st kw => compressRound st kw.1 kw.2) st0
  [(hs.getD 0 0 + st.a) % M32, (hs.getD 1 0 + st.b) % M32,
   (hs.getD 2 0 + st.c) % M32, (hs.getD 3 0 + st.d) % M32,
   (hs.getD 4 0 + st.e) % M32, (hs.getD 5 0 + st.f) % M32,
   (hs.getD 6 0 + st.g) % M32, (hs.getD 7 0 + st.h) % M32]

/-- Fuel-driven worker for `chunksBy`; the fuel bounds the number of
chunks produced, so the recursion is structural (and hence evaluates in
the kernel). -/
def chunksByAux (n : Nat) : Nat → List α → List (List α)
  | 0, _ => []
  | _, [] => []
  | fuel + 1, a :: l =>
      ((a :: l).take (n + 1)) :: chunksByAux n fuel ((a :: l).drop (n + 1))

/-- Split a list into chunks of `n + 1` elements (the successor makes
every chunk non-empty, so `l.length` steps of fuel always suffice). -/
def chunksBy (n : Nat) (l : List α) : List (List α) :=
  chunksByAux n l.length l

/-- Big-endian 8-byte encoding of a natural number. -/
def bigEndian8 (n : Nat) : List Nat :=
  (List.range 8).map (fun i => n / 256 ^ (7 - i) % 256)

/-- SHA-256 message padding: append `0x80`, zero bytes to 56 mod 64, then
the 8-byte big-endian bit length. -/
def padMessage (msg : Bytes) : Bytes :=
  let zeros := (64 - (msg.length + 9) % 64) % 64
  msg ++ [128] ++ List.replicate zeros 0 ++ bigEndian8 (msg.length * 8)

/-- Pack bytes into big-endian 32-bit words (4 bytes per word). -/
def toWords (bs : Bytes) : List Nat :=
  (chunksBy 3 bs).map (fun c => c.foldl (fun a b => a * 256 + b) 0)

/-- The eight 32-bit words of the SHA-256 digest of a byte string. -/
def sha256words (msg : Bytes) : List Nat :=
  (chunksBy 63 (padMessage msg)).foldl
    (fun hs block => compressBlock hs (toWords block)) shaH0

/-- Lower-case hex digit for a value below 16. -/
def hexChar (d : Nat) : Char :=
  if d < 10 then Char.ofNat (48 + d) else Char.ofNat (87 + d)

/-- Fixed-width (8 hex digits) rendering of a 32-bit word. -/
def wordToHex (w : Nat) : String :=
  String.mk ((List.range 8).map (fun i => hexChar (w / 16 ^ (7 - i) % 16)))

/-- The SHA-256 hex digest of a byte string, as the `hexdigest` method of `hashlib`
returns it. -/
def sha256hex (msg : Bytes) : String :=
  String.join ((sha256words msg).map wordToHex)

/-! ## `hashlib` hasher model

`hashlib.sha256()` hands out a hasher object; `update` feeds it more
bytes and `hexdigest` returns the digest of everything fed so far. -/

/-- Hasher state: the bytes accumulated by `update` calls so far. -/
abbrev Hasher := Bytes

/-- A fresh `hashlib.sha256()` hasher. -/
def hasherInit : Hasher := []

/-- `hasher.update(chunk)`. -/
def hasherUpdate (h : Hasher) (chunk : Bytes) : Hasher := h ++ chunk

/-- `hasher.hexdigest()`. -/
def hexdigest (h : Hasher) : String := sha256hex h

/-! ## `helpers.calculate_checksum` -/

/-- Embedding of `helpers.calculate_checksum` (src/helpers.py lines
171-193).  The algorithm check happens before the file is opened; the file
is then read in chunks of 4096 bytes, each fed to the hasher. -/
def calculate_checksum (fs : FileSys) (file_path : String)
    (algorithm : String) : Except PyError String :=
  if algorithm = "sha256" then
    match fs file_path with
    | none => .error (.ioError file_path)
    | some content =>
        .ok (hexdigest ((chunksBy 4095 content).foldl hasherUpdate hasherInit))
  else
    .error (.valueError ("Unsupported algorithm: " ++ algorithm))

/-! ## Durable report store (modelled from the spec)

The `app.utils.files` module is not part of the repository snapshot; per
the spec it is a durable report store with overwrite-on-write semantics
keyed by file path (`write(space_id, scan_id, content)`,
`read/delete(scan_id)`). -/

/-- Modelled from the spec: `files.put_file` / `files.post_file` write
`content` at `path`, overwriting any previous binding for that path. -/
def putStore (path content : String) (s : Store) : Store :=
  (path, content) :: s.eraseP (fun kv => kv.1 == path)

/-- Modelled from the spec: `files.delete_file` removes the binding at
`path`. -/
def deleteStore (path : String) (s : Store) : Store :=
  s.eraseP (fun kv => kv.1 == path)

/-- `os.path.join(dir, name)` as used on report paths. -/
def joinPath (dir name : String) : String := dir ++ "/" ++ name

/-- The report file name `f"report-\x7bscan_id\x7d.json"` used by both
scan phases: the location is deterministic from the scan id. -/
def reportFilename (scan_id : String) : String :=
  "report-" ++ scan_id ++ ".json"

/-! ## JSON serialization (model of `json.dumps`)

`json.dumps(content_md, indent=4)` is modelled by a deterministic
rendering of the metadata structure; only its determinism matters to the
claims. -/

/-- Render an optional string JSON-style. -/
def dumpOptStr : Option String → String
  | none => "null"
  | some s => "\"" ++ s ++ "\""

/-- Render an optional timestamp JSON-style. -/
def dumpOptNat : Option Nat → String
  | none => "null"
  | some n => toString n

/-- Serialize one contents entry. -/
def dumpEntry (e : Entry) : String :=
  "\x7b\"fileid\": \"" ++ e.fileid ++ "\", \"path\": \"" ++ e.path ++
  "\", \"size\": " ++ toString e.size ++
  ", \"last_modified\": " ++ toString e.last_modified ++
  ", \"resource_type\": \"" ++ e.resource_type ++
  "\", \"scan_errors\": [" ++ String.intercalate ", " e.scan_errors ++
  "], \"checksum\": " ++ dumpOptStr e.checksum ++
  ", \"last_checksum_date\": " ++ dumpOptNat e.last_checksum_date ++ "\x7d"

/-- Serialize the full `content_md` dictionary (model of `json.dumps`). -/
def dumpJson (md : ContentMd) : String :=
  "\x7b\"space_id\": \"" ++ md.space_id ++
  "\", \"scan_id\": \"" ++ md.scan_id ++
  "\", \"scan_time\": " ++ toString md.scan_time ++
  ", \"scan_datetime\": \"" ++ md.scan_datetime ++
  "\", \"user_dir\": \"" ++ md.user_dir ++
  "\", \"fm_system_path\": \"" ++ md.fm_system_path ++
  "\", \"contents\": [" ++
  String.intercalate ", " (md.contents.map dumpEntry) ++
  "], \"last_modified\": \"" ++ md.last_modified ++
  "\", \"is_complete\": " ++ (if md.is_complete then "true" else "false") ++
  "\x7d"

/-! ## `FileManagerDirectoryScanner.fast_scan` (scan.py lines 212-231) -/

/-- Embedding of `fast_scan`: serialize the input metadata, upload it as
`report-\x7bscan_id\x7d.json` under the system path, and return the input
metadata unchanged.  (The temporary local file used for the upload is
invisible at the store boundary.) -/
def fast_scan (md : ContentMd) (store : Store) : ContentMd × Store :=
  (md, putStore (joinPath md.fm_system_path (reportFilename md.scan_id))
        (dumpJson md) store)

/-! ## `FileManagerDirectoryScanner.slow_scan` (scan.py lines 233-267) -/

/-- The effective last-checksum date: `resource.get` of `last_checksum_date`
with the epoch string as default, i.e. the epoch when the key is missing. -/
def lcdOrEpoch (e : Entry) : Nat := e.last_checksum_date.getD 0

/-- The selection test of the slow phase: a file entry whose
`last_modified` is strictly after its (defaulted) `last_checksum_date`. -/
def selectedB (e : Entry) : Bool :=
  e.resource_type == "file" && lcdOrEpoch e < e.last_modified

/-- The per-entry update on checksum success:
setting the `checksum` key to the digest and the
`last_checksum_date` key to `current_time.isoformat()`. -/
def updateEntry (now : Nat) (c : String) (e : Entry) : Entry :=
  { e with checksum := some c, last_checksum_date := some now }

/-- Human-readable message of a raised exception (`str(e)`). -/
def errMsg : PyError → String
  | .ioError p => "unreadable: " ++ p
  | .valueError m => m

/-- Result of running the slow phase: the metadata as left in memory, the
report store as left on disk, and `some msg` when an exception escaped
the scan (aborting it). -/
structure ScanOutcome where
  md : ContentMd
  store : Store
  err : Option String
deriving DecidableEq

/-- Worker for `slow_scan`: processes `rest` left to right, `done` holds
the already-processed prefix.  Mirrors the loop body of scan.py lines
249-265: non-selected entries are untouched; for a selected entry the
checksum is computed (an exception aborts the whole loop, leaving the
entry untouched — there is no try/except around the call), on success the
entry is updated and the full current snapshot is serialized and written
to the report path. -/
def slowScanGo (fs : FileSys) (now : Nat) (md0 : ContentMd) :
    List Entry → List Entry → Store → ScanOutcome
  | done, [], store => ⟨{ md0 with contents := done }, store, none⟩
  | done, e :: rest, store =>
      if selectedB e then
        match calculate_checksum fs e.path "sha256" with
        | .error ex =>
            ⟨{ md0 with contents := done ++ e :: rest }, store,
             some (errMsg ex)⟩
        | .ok c =>
            let e2 := updateEntry now c e
            let snapshot := { md0 with contents := done ++ e2 :: rest }
            let store2 := putStore
              (joinPath md0.fm_system_path (reportFilename md0.scan_id))
              (dumpJson snapshot) store
            slowScanGo fs now md0 (done ++ [e2]) rest store2
      else
        slowScanGo fs now md0 (done ++ [e]) rest store

/-- Embedding of `slow_scan`.  `now` is the single
`datetime.datetime.now()` value captured at the top of the function and
used as `last_checksum_date` for every entry updated during this run. -/
def slow_scan (fs : FileSys) (now : Nat) (md : ContentMd)
    (store : Store) : ScanOutcome :=
  slowScanGo fs now md [] md.contents store

/-! ## Scan registry (`scans_states`) and the `ScanFiles` endpoints -/

/-- What the `delete` handler reads from a registry value:
the `report_location` key of `scans_states[scan_id]`. -/
structure RegVal where
  report_location : String
deriving DecidableEq

/-- The global `scans_states` dictionary.  Values are `Option RegVal`
because the `get` handler explicitly tests the stored value against
`None`. -/
abbrev Registry := List (String × Option RegVal)

/-- HTTP-level outcome of a handler, paired below with its status code:
`success` = the 2xx body, `keyError` = the explicit 404 body, and
`unexpected` = the generic `except Exception` 500 body. -/
inductive Resp where
  | success (msg : String)
  | keyError (msg : String)
  | unexpected (msg : String)
deriving DecidableEq

/-- Embedding of `ScanFiles.get` (scan.py lines 369-391).  A missing
`scan_id` raises `KeyError` at `scans_states[scan_id]`, which is caught
by the generic `except Exception` handler and returned as a 500; the 404
branch is reached only when the stored value is `None`. -/
def scanFilesGet (reg : Registry) (scan_id : String) : Resp × Nat :=
  match reg.lookup scan_id with
  | none => (.unexpected ("KeyError: " ++ scan_id), 500)
  | some none => (.keyError ("Scanning " ++ scan_id ++ " Not Found"), 404)
  | some (some _) => (.success "GET", 200)

/-- Embedding of `ScanFiles.delete` (scan.py lines 393-417).  A missing
`scan_id` raises `KeyError`, caught by the dedicated `except KeyError`
handler and returned as a 404; a stored `None` value would raise
`TypeError` at the `report_location` subscript, caught by the generic
handler as a 500. -/
def scanFilesDelete (reg : Registry) (store : Store) (scan_id : String) :
    Resp × Nat × Registry × Store :=
  match reg.lookup scan_id with
  | none => (.keyError ("Scanning " ++ scan_id ++ " Not Found"), 404, reg, store)
  | some none => (.unexpected "TypeError", 500, reg, store)
  | some (some v) =>
      (.success ("Scanning " ++ scan_id ++ " deleted successfully!"), 200,
       reg.eraseP (fun kv => kv.1 == scan_id),
       deleteStore v.report_location store)

/-- End state of one full scan flow for claim C2. -/
structure FlowResult where
  registry : Registry
  outcome : ScanOutcome
deriving DecidableEq

/-- Embedding of the scan flow of `ScanFiles.post` (scan.py lines
336-354) followed by the background thread running `slow_scan` to its
end: `fast_scan` is called on the assembled metadata, the slow phase is
then run on its result.  Neither `post` (whose update of the scanning
state is left as a `#TODO` comment at line 343), nor `slow_scan`, nor the
thread body ever writes `scans_states`, so the registry passes through
unchanged. -/
def postThenSlowScan (fs : FileSys) (now : Nat) (reg : Registry)
    (md : ContentMd) (store : Store) : FlowResult :=
  let fr := fast_scan md store
  { registry := reg, outcome := slow_scan fs now fr.1 fr.2 }

/-- The report path used by both scan phases for a given metadata. -/
def reportPath (md : ContentMd) : String :=
  joinPath md.fm_system_path (reportFilename md.scan_id)

/-- Relation between an input entry and the corresponding output entry of
one `slow_scan` run whose error field is `errOut`: non-selected entries
are unchanged; every entry is either unchanged or updated with a
successfully computed checksum stamped `now`; and when the run finished
without an exception, every selected entry was updated. -/
abbrev entryRel (fs : FileSys) (now : Nat) (errOut : Option String)
    (e e2 : Entry) : Prop :=
  (selectedB e = false → e2 = e) ∧
  (e2 = e ∨ ∃ c, calculate_checksum fs e.path "sha256" = .ok c ∧
      e2 = updateEntry now c e) ∧
  (errOut = none → selectedB e = true →
    ∃ c, calculate_checksum fs e.path "sha256" = .ok c ∧
      e2 = updateEntry now c e)

/-! ## Concrete scan inputs used to instantiate the claims -/

/-- A never-checksummed file entry at an unreadable path. -/
def c1bad : Entry := ⟨"1", "/bad", 5, 10, "file", [], none, none⟩

/-- A never-checksummed file entry at a readable path, listed after
`c1bad`. -/
def c1good : Entry := ⟨"2", "/good", 3, 10, "file", [], none, none⟩

/-- Metadata whose first selected entry is unreadable. -/
def c1md : ContentMd :=
  ⟨"sp", "s1", 0, "t", "u", "sys", [c1bad, c1good], "lm", true⟩

/-- Filesystem where only `/good` is readable. -/
def c1fs : FileSys := fun p => if p = "/good" then some [1, 2, 3] else none

/-- A never-checksummed file entry at an unreadable path. -/
def c3bad : Entry := ⟨"3", "/gone", 5, 10, "file", [], none, none⟩

/-- Metadata whose only entry is the unreadable `c3bad`. -/
def c3md : ContentMd := ⟨"sp", "s3", 0, "t", "u", "sys", [c3bad], "lm", true⟩

/-- A store holding one unrelated binding. -/
def c3store : Store := [("x", "y")]

/-- A filesystem on which nothing is readable. -/
def c3fs : FileSys := fun _ => none

/-- A file entry already checksummed after its last modification
(`last_modified = 3 ≤ last_checksum_date = 5`). -/
def c4entry : Entry := ⟨"4", "/f", 4, 3, "file", [], some "old", some 5⟩

/-- Metadata whose only entry is the up-to-date `c4entry`. -/
def c4md : ContentMd := ⟨"sp", "s4", 0, "t", "u", "sys", [c4entry], "lm", true⟩

/-- A never-checksummed file entry whose `last_modified` is exactly the
epoch. -/
def c5entry : Entry := ⟨"5", "/e", 7, 0, "file", [], none, none⟩

/-- Metadata whose only entry is the epoch-dated `c5entry`. -/
def c5md : ContentMd := ⟨"sp", "s5", 0, "t", "u", "sys", [c5entry], "lm", true⟩

/-- A never-checksummed file entry modified after the epoch. -/
def c5wentry : Entry := ⟨"5w", "/w", 7, 1, "file", [], none, none⟩

/-- Metadata whose only entry is `c5wentry`. -/
def c5wmd : ContentMd :=
  ⟨"sp", "s5w", 0, "t", "u", "sys", [c5wentry], "lm", true⟩

/-- A folder entry. -/
def c6entry : Entry := ⟨"6", "/d/", 0, 3, "folder", [], none, none⟩

/-- Metadata whose only entry is the folder `c6entry`. -/
def c6md : ContentMd := ⟨"sp", "s6", 0, "t", "u", "sys", [c6entry], "lm", true⟩

/-- A stale file entry at an unreadable path. -/
def c10entry : Entry := ⟨"10", "/x", 1, 5, "file", [], none, none⟩

/-- Metadata whose only entry is `c10entry`. -/
def c10md : ContentMd :=
  ⟨"sp", "s10", 0, "t", "u", "sys", [c10entry], "lm", true⟩

/-! ## Helper lemmas -/

/-- Feeding a list of chunks to the hasher accumulates their
concatenation. -/
theorem foldl_hasherUpdate (L : List Bytes) :
    ∀ h : Hasher, L.foldl hasherUpdate h = h ++ L.flatten := by
  induction L with
  | nil => intro h; simp [List.flatten]
  | cons c L ih =>
      intro h
      simp [List.foldl, hasherUpdate, ih (h ++ c), List.flatten,
        List.append_assoc]

/-- With enough fuel, the chunks concatenate back to the input list. -/
theorem join_chunksByAux (n : Nat) :
    ∀ (fuel : Nat) (l : List α), l.length ≤ fuel →
      (chunksByAux n fuel l).flatten = l := by
  intro fuel
  induction fuel with
  | zero =>
      intro l hl
      have : l = [] := List.eq_nil_of_length_eq_zero (Nat.le_zero.mp hl)
      subst this
      simp [chunksByAux, List.flatten]
  | succ fuel ih =>
      intro l hl
      cases l with
      | nil => simp [chunksByAux, List.flatten]
      | cons a t =>
          have hd : ((a :: t).drop (n + 1)).length ≤ fuel := by
            simp only [List.length_drop, List.length_cons] at *
            omega
          simp only [chunksByAux, List.flatten, ih _ hd]
          exact List.take_append_drop (n + 1) (a :: t)

/-- Splitting into chunks loses nothing: the checksum loop reads the
whole file content. -/
theorem join_chunksBy (n : Nat) (l : List α) : (chunksBy n l).flatten = l :=
  join_chunksByAux n l.length l (Nat.le_refl _)

/-- On a readable file, `calculate_checksum` with the default algorithm
returns exactly the SHA-256 hex digest of the whole content. -/
theorem calculate_checksum_ok (fs : FileSys) (p : String) (content : Bytes)
    (h : fs p = some content) :
    calculate_checksum fs p "sha256" = .ok (sha256hex content) := by
  simp [calculate_checksum, h, hexdigest, hasherInit, foldl_hasherUpdate,
    join_chunksBy]

/-- A fresh write is what `lookup` finds at that path. -/
theorem lookup_putStore (p c : String) (s : Store) :
    List.lookup p (putStore p c s) = some c := by
  simp [putStore, List.lookup]

/-- Overwriting a path twice with the same content is the same single
write. -/
theorem putStore_idem (p c : String) (s : Store) :
    putStore p c (putStore p c s) = putStore p c s := by
  simp [putStore, List.eraseP_cons]

/-! ## The master induction lemmas for the slow phase -/

/-- When the run aborted, the unchanged-entry relation holds reflexively. -/
theorem entryRel_refl (fs : FileSys) (now : Nat) (m : String) :
    ∀ l : List Entry, List.Forall₂ (entryRel fs now (some m)) l l := by
  intro l
  induction l with
  | nil => exact List.Forall₂.nil
  | cons e l ih =>
      exact List.Forall₂.cons
        ⟨fun _ => rfl, Or.inl rfl, fun h => by simp at h⟩ ih

/-- Master lemma: the output contents of the slow-phase worker are the
processed prefix followed by entries related one-to-one to the input
suffix by `entryRel`. -/
theorem slowScanGo_spec (fs : FileSys) (now : Nat) (md0 : ContentMd) :
    ∀ (rest done : List Entry) (store : Store),
      ∃ rest2,
        (slowScanGo fs now md0 done rest store).md.contents =
          done ++ rest2 ∧
        List.Forall₂
          (entryRel fs now (slowScanGo fs now md0 done rest store).err)
          rest rest2 := by
  intro rest
  induction rest with
  | nil =>
      intro done store
      exact ⟨[], by simp [slowScanGo], List.Forall₂.nil⟩
  | cons e rest ih =>
      intro done store
      by_cases hsel : selectedB e = true
      · cases hcs : calculate_checksum fs e.path "sha256" with
        | error ex =>
            have hres : slowScanGo fs now md0 done (e :: rest) store =
                ⟨{ md0 with contents := done ++ e :: rest }, store,
                 some (errMsg ex)⟩ := by
              simp [slowScanGo, hsel, hcs]
            refine ⟨e :: rest, by rw [hres], ?_⟩
            rw [hres]
            exact List.Forall₂.cons
              ⟨fun _ => rfl, Or.inl rfl, fun h => by simp at h⟩
              (entryRel_refl fs now (errMsg ex) rest)
        | ok c =>
            have hres : slowScanGo fs now md0 done (e :: rest) store =
                slowScanGo fs now md0 (done ++ [updateEntry now c e]) rest
                  (putStore (joinPath md0.fm_system_path
                      (reportFilename md0.scan_id))
                    (dumpJson { md0 with
                      contents := done ++ updateEntry now c e :: rest })
                    store) := by
              simp [slowScanGo, hsel, hcs]
            obtain ⟨rest2, hc, hf⟩ := ih (done ++ [updateEntry now c e]) _
            refine ⟨updateEntry now c e :: rest2, ?_, ?_⟩
            · rw [hres, hc]; simp
            · rw [hres]
              refine List.Forall₂.cons ⟨?_, ?_, ?_⟩ hf
              · intro h; rw [h] at hsel; simp at hsel
              · exact Or.inr ⟨c, hcs, rfl⟩
              · intro _ _; exact ⟨c, hcs, rfl⟩
      · have hres : slowScanGo fs now md0 done (e :: rest) store =
            slowScanGo fs now md0 (done ++ [e]) rest store := by
          simp [slowScanGo, hsel]
        obtain ⟨rest2, hc, hf⟩ := ih (done ++ [e]) store
        refine ⟨e :: rest2, by rw [hres, hc]; simp, ?_⟩
        rw [hres]
        exact List.Forall₂.cons
          ⟨fun _ => rfl, Or.inl rfl, fun _ hs => absurd hs hsel⟩ hf

/-- The slow-phase worker only ever changes the `contents` field of the
metadata. -/
theorem slowScanGo_md (fs : FileSys) (now : Nat) (md0 : ContentMd) :
    ∀ (rest done : List Entry) (store : Store),
      (slowScanGo fs now md0 done rest store).md =
        { md0 with
          contents := (slowScanGo fs now md0 done rest store).md.contents }
    := by
  intro rest
  induction rest with
  | nil => intro done store; simp [slowScanGo]
  | cons e rest ih =>
      intro done store
      by_cases hsel : selectedB e = true
      · cases hcs : calculate_checksum fs e.path "sha256" with
        | error ex => simp [slowScanGo, hsel, hcs]
        | ok c => simp only [slowScanGo, hsel, if_true, hcs]; exact ih _ _
      · simp only [slowScanGo, hsel, if_false, Bool.false_eq_true]
        exact ih _ _

/-- Store lemma: either no entry of `rest` was updated (the store and the
remaining contents are untouched), or the binding at the report path is
exactly the serialization of the metadata as the worker left it. -/
theorem slowScanGo_store (fs : FileSys) (now : Nat) (md0 : ContentMd) :
    ∀ (rest done : List Entry) (store : Store),
      ((slowScanGo fs now md0 done rest store).store = store ∧
       (slowScanGo fs now md0 done rest store).md.contents =
         done ++ rest) ∨
      List.lookup (joinPath md0.fm_system_path (reportFilename md0.scan_id))
          (slowScanGo fs now md0 done rest store).store =
        some (dumpJson (slowScanGo fs now md0 done rest store).md) := by
  intro rest
  induction rest with
  | nil =>
      intro done store
      exact Or.inl ⟨by simp [slowScanGo], by simp [slowScanGo]⟩
  | cons e rest ih =>
      intro done store
      by_cases hsel : selectedB e = true
      · cases hcs : calculate_checksum fs e.path "sha256" with
        | error ex =>
            have hres : slowScanGo fs now md0 done (e :: rest) store =
                ⟨{ md0 with contents := done ++ e :: rest }, store,
                 some (errMsg ex)⟩ := by
              simp [slowScanGo, hsel, hcs]
            exact Or.inl ⟨by rw [hres], by rw [hres]⟩
        | ok c =>
            have hres : slowScanGo fs now md0 done (e :: rest) store =
                slowScanGo fs now md0 (done ++ [updateEntry now c e]) rest
                  (putStore (joinPath md0.fm_system_path
                      (reportFilename md0.scan_id))
                    (dumpJson { md0 with
                      contents := done ++ updateEntry now c e :: rest })
                    store) := by
              simp [slowScanGo, hsel, hcs]
            rw [hres]
            rcases ih (done ++ [updateEntry now c e]) _ with ⟨hs, hc⟩ | hl
            · refine Or.inr ?_
              have hmd := slowScanGo_md fs now md0 rest
                (done ++ [updateEntry now c e])
                (putStore (joinPath md0.fm_system_path
                    (reportFilename md0.scan_id))
                  (dumpJson { md0 with
                    contents := done ++ updateEntry now c e :: rest })
                  store)
              rw [hs, hmd, hc, lookup_putStore]
              simp
            · exact Or.inr hl
      · have hres : slowScanGo fs now md0 done (e :: rest) store =
            slowScanGo fs now md0 (done ++ [e]) rest store := by
          simp [slowScanGo, hsel]
        rw [hres]
        rcases ih (done ++ [e]) store with ⟨hs, hc⟩ | hl
        · exact Or.inl ⟨hs, by rw [hc]; simp⟩
        · exact Or.inr hl

/-- Abort lemma: when the worker ends with an error, the input suffix
splits as `pre ++ e :: post` where `e` is selected, its checksum
computation raised, the message is the message of that exception, and the
output contents end with the failing entry and its successors exactly as
they came in (everything from the failure point on is untouched). -/
theorem slowScanGo_abort (fs : FileSys) (now : Nat) (md0 : ContentMd) :
    ∀ (rest done : List Entry) (store : Store) (m : String),
      (slowScanGo fs now md0 done rest store).err = some m →
      ∃ pre e post, rest = pre ++ e :: post ∧
        selectedB e = true ∧
        (∃ ex, calculate_checksum fs e.path "sha256" = .error ex ∧
          m = errMsg ex) ∧
        ∃ done2, (slowScanGo fs now md0 done rest store).md.contents =
          done2 ++ e :: post := by
  intro rest
  induction rest with
  | nil =>
      intro done store m hm
      simp [slowScanGo] at hm
  | cons e rest ih =>
      intro done store m hm
      by_cases hsel : selectedB e = true
      · cases hcs : calculate_checksum fs e.path "sha256" with
        | error ex =>
            have hres : slowScanGo fs now md0 done (e :: rest) store =
                ⟨{ md0 with contents := done ++ e :: rest }, store,
                 some (errMsg ex)⟩ := by
              simp [slowScanGo, hsel, hcs]
            rw [hres] at hm ⊢
            refine ⟨[], e, rest, rfl, hsel, ⟨ex, hcs, ?_⟩, done, rfl⟩
            simpa using hm.symm
        | ok c =>
            have hres : slowScanGo fs now md0 done (e :: rest) store =
                slowScanGo fs now md0 (done ++ [updateEntry now c e]) rest
                  (putStore (joinPath md0.fm_system_path
                      (reportFilename md0.scan_id))
                    (dumpJson { md0 with
                      contents := done ++ updateEntry now c e :: rest })
                    store) := by
              simp [slowScanGo, hsel, hcs]
            rw [hres] at hm ⊢
            obtain ⟨pre, e2, post, hsplit, hs2, hex, done2, hcont⟩ :=
              ih (done ++ [updateEntry now c e]) _ m hm
            exact ⟨e :: pre, e2, post, by simp [hsplit],
              hs2, hex, done2, hcont⟩
      · have hres : slowScanGo fs now md0 done (e :: rest) store =
            slowScanGo fs now md0 (done ++ [e]) rest store := by
          simp [slowScanGo, hsel]
        rw [hres] at hm ⊢
        obtain ⟨pre, e2, post, hsplit, hs2, hex, done2, hcont⟩ :=
          ih (done ++ [e]) store m hm
        exact ⟨e :: pre, e2, post, by simp [hsplit], hs2, hex, done2, hcont⟩

/-- Bridge: each positionally corresponding input/output pair of one
`slow_scan` run satisfies `entryRel`. -/
theorem slow_scan_zip (fs : FileSys) (now : Nat) (md : ContentMd)
    (store : Store) :
    ∀ e e2,
      (e, e2) ∈ md.contents.zip (slow_scan fs now md store).md.contents →
      entryRel fs now (slow_scan fs now md store).err e e2 := by
  intro e e2 hmem
  obtain ⟨rest2, hc, hf⟩ := slowScanGo_spec fs now md md.contents [] store
  rw [List.nil_append] at hc
  simp only [slow_scan] at hmem ⊢
  rw [hc] at hmem
  exact List.forall₂_zip hf hmem

/-! ## Claim theorems -/

/-- Claim C4: for every file entry whose `last_modified` is at most its
(defaulted) `last_checksum_date`, `slow_scan` leaves that
`checksum` and `last_checksum_date` unchanged — the entry is skipped, so
a full re-run is safe. -/
theorem C4_skip (fs : FileSys) (now : Nat) (md : ContentMd) (store : Store)
    (e e2 : Entry)
    (hmem : (e, e2) ∈ md.contents.zip (slow_scan fs now md store).md.contents)
    (hfile : e.resource_type = "file")
    (hle : e.last_modified ≤ lcdOrEpoch e) :
    e2.checksum = e.checksum ∧
    e2.last_checksum_date = e.last_checksum_date := by
  have h := slow_scan_zip fs now md store e e2 hmem
  have hns : selectedB e = false := by
    have hnl : ¬ lcdOrEpoch e < e.last_modified := Nat.not_lt.mpr hle
    simp [selectedB, hnl]
  rw [h.1 hns]
  exact ⟨rfl, rfl⟩

/-- Witness for C4 at a concrete skipped entry. -/
theorem C4_skip_witness :
    ((c4entry, c4entry) ∈ c4md.contents.zip
        (slow_scan (fun _ => none) 7 c4md []).md.contents ∧
      c4entry.resource_type = "file" ∧
      c4entry.last_modified ≤ lcdOrEpoch c4entry) ∧
    (c4entry.checksum = c4entry.checksum ∧
      c4entry.last_checksum_date = c4entry.last_checksum_date) :=
  ⟨⟨by decide, rfl, by decide⟩,
   C4_skip (fun _ => none) 7 c4md [] c4entry c4entry
     (by decide) rfl (by decide)⟩

/-- Claim C6: no folder entry (any entry whose `resource_type` is not
`"file"`) is ever touched by `fast_scan` or `slow_scan`: `fast_scan`
returns its input unchanged, and `slow_scan` returns every non-file entry
exactly as it came in (so it never acquires a `checksum` or a
`last_checksum_date`). -/
theorem C6_folders (fs : FileSys) (now : Nat) (md : ContentMd)
    (store : Store) (e e2 : Entry)
    (hmem : (e, e2) ∈ md.contents.zip (slow_scan fs now md store).md.contents)
    (hnf : e.resource_type ≠ "file") :
    (fast_scan md store).1 = md ∧ e2 = e := by
  refine ⟨rfl, ?_⟩
  have h := slow_scan_zip fs now md store e e2 hmem
  exact h.1 (by simp [selectedB, hnf])

/-- Witness for C6 at a concrete folder entry. -/
theorem C6_folders_witness :
    ((c6entry, c6entry) ∈ c6md.contents.zip
        (slow_scan (fun _ => none) 7 c6md []).md.contents ∧
      c6entry.resource_type ≠ "file") ∧
    ((fast_scan c6md []).1 = c6md ∧ c6entry = c6entry) :=
  ⟨⟨by decide, by decide⟩,
   C6_folders (fun _ => none) 7 c6md [] c6entry c6entry
     (by decide) (by decide)⟩

/-- Claim C10: within one `slow_scan` run every output entry is either
untouched or was updated with a successfully computed checksum and the
single timestamp `now` captured at the start of the run — so all updated
entries share the identical `last_checksum_date` and `checksum` /
`last_checksum_date` are only ever set together, as a pair. -/
theorem C10_pairing (fs : FileSys) (now : Nat) (md : ContentMd)
    (store : Store) (e e2 : Entry)
    (hmem : (e, e2) ∈ md.contents.zip (slow_scan fs now md store).md.contents) :
    e2 = e ∨ ∃ c, calculate_checksum fs e.path "sha256" = .ok c ∧
      e2 = updateEntry now c e :=
  (slow_scan_zip fs now md store e e2 hmem).2.1

/-- Witness for C10 at a concrete entry. -/
theorem C10_pairing_witness :
    ((c10entry, c10entry) ∈ c10md.contents.zip
        (slow_scan (fun _ => none) 9 c10md []).md.contents) ∧
    (c10entry = c10entry ∨
      ∃ c, calculate_checksum (fun _ => none) c10entry.path "sha256" =
          .ok c ∧ c10entry = updateEntry 9 c c10entry) :=
  ⟨by decide,
   C10_pairing (fun _ => none) 9 c10md [] c10entry c10entry (by decide)⟩

/-- Claim C8: `calculate_checksum` with any algorithm other than
`"sha256"` raises `ValueError` without consulting the file system (the
result is the same on every file system), and on a readable file with the
`"sha256"` algorithm it returns exactly the SHA-256 hex digest of the
entire file content — hashing the whole content at once, independent of
the 4096-byte chunked reading. -/
theorem C8_checksum :
    (∀ (fs fs2 : FileSys) (p a : String), a ≠ "sha256" →
      calculate_checksum fs p a =
        .error (.valueError ("Unsupported algorithm: " ++ a)) ∧
      calculate_checksum fs p a = calculate_checksum fs2 p a) ∧
    (∀ (fs : FileSys) (p : String) (content : Bytes),
      fs p = some content →
      calculate_checksum fs p "sha256" = .ok (sha256hex content)) := by
  constructor
  · intro fs fs2 p a ha
    constructor <;> simp [calculate_checksum, ha]
  · intro fs p content h
    exact calculate_checksum_ok fs p content h

/-- Witness for C8: `"md5"` is rejected, and a concrete readable file is
hashed to the SHA-256 digest of its whole content. -/
theorem C8_checksum_witness :
    ("md5" ≠ "sha256" ∧
      calculate_checksum (fun _ => none) "f" "md5" =
        .error (.valueError "Unsupported algorithm: md5")) ∧
    ((fun _ => some [97, 98, 99] : FileSys) "f" = some [97, 98, 99] ∧
      calculate_checksum (fun _ => some [97, 98, 99]) "f" "sha256" =
        .ok (sha256hex [97, 98, 99])) :=
  ⟨⟨by decide,
    (C8_checksum.1 (fun _ => none) (fun _ => none) "f" "md5" (by decide)).1⟩,
   ⟨rfl, C8_checksum.2 (fun _ => some [97, 98, 99]) "f" [97, 98, 99] rfl⟩⟩

/-- Claim C9: `fast_scan` returns its input metadata unchanged (no
checksums are computed), writes the serialization of that input at the
report location that is deterministic from `scan_id`
(`report-<scan_id>.json` under the system path), and is idempotent:
re-running it on its own output store overwrites the same report with the
same content, leaving the store identical. -/
theorem C9_fast_scan (md : ContentMd) (store : Store) :
    (fast_scan md store).1 = md ∧
    List.lookup (reportPath md) (fast_scan md store).2 =
      some (dumpJson md) ∧
    (fast_scan md (fast_scan md store).2).2 = (fast_scan md store).2 := by
  refine ⟨rfl, ?_, ?_⟩
  · exact lookup_putStore _ _ _
  · exact putStore_idem _ _ _

/-- Claim C1 counterexample: with the first selected entry unreadable and
the second readable, `slow_scan` aborts with the exception: no message is
appended to the `scan_errors` of the failing entry (still `[]`), and the
remaining readable entry is not processed (its `checksum` is still
`none`) — contradicting the claim that the failure is recorded per entry
and the scan continues. -/
theorem C1_cex :
    (slow_scan c1fs 100 c1md []).err = some "unreadable: /bad" ∧
    (slow_scan c1fs 100 c1md []).md.contents = [c1bad, c1good] ∧
    c1bad.scan_errors = [] ∧ c1good.checksum = none := by
  exact ⟨rfl, rfl, rfl, rfl⟩

/-- Claim C1 (amended): when the checksum computation of a selected entry
fails, `slow_scan` propagates the exception and aborts: no
`scan_errors` is ever modified, the input splits at a selected entry
whose checksum computation raised the escaping exception, and the output
contents end with that failing entry and all entries after it exactly as
they came in. -/
theorem C1_amended (fs : FileSys) (now : Nat) (md : ContentMd)
    (store : Store) (m : String)
    (hm : (slow_scan fs now md store).err = some m) :
    List.Forall₂ (fun e e2 => e2.scan_errors = e.scan_errors)
      md.contents (slow_scan fs now md store).md.contents ∧
    ∃ pre e post, md.contents = pre ++ e :: post ∧
      selectedB e = true ∧
      (∃ ex, calculate_checksum fs e.path "sha256" = .error ex ∧
        m = errMsg ex) ∧
      ∃ done2, (slow_scan fs now md store).md.contents =
        done2 ++ e :: post := by
  constructor
  · obtain ⟨rest2, hc, hf2⟩ := slowScanGo_spec fs now md md.contents [] store
    rw [List.nil_append] at hc
    simp only [slow_scan]
    rw [hc]
    refine List.Forall₂.imp ?_ hf2
    intro e e2 h
    rcases h.2.1 with h | ⟨c, _, h⟩
    · rw [h]
    · rw [h]; rfl
  · simp only [slow_scan] at hm ⊢
    exact slowScanGo_abort fs now md md.contents [] store m hm

/-- Witness for the amended C1 at the concrete aborting scan. -/
theorem C1_amended_witness :
    (slow_scan c1fs 100 c1md []).err = some "unreadable: /bad" ∧
    (List.Forall₂ (fun e e2 => e2.scan_errors = e.scan_errors)
        c1md.contents (slow_scan c1fs 100 c1md []).md.contents ∧
      ∃ pre e post, c1md.contents = pre ++ e :: post ∧
        selectedB e = true ∧
        (∃ ex, calculate_checksum c1fs e.path "sha256" = .error ex ∧
          "unreadable: /bad" = errMsg ex) ∧
        ∃ done2, (slow_scan c1fs 100 c1md []).md.contents =
          done2 ++ e :: post) :=
  ⟨rfl, C1_amended c1fs 100 c1md [] "unreadable: /bad" rfl⟩

/-- Claim C2: the scan flow never writes the scan registry — `post` only
carries a `#TODO` where the state update should happen — so after a
complete, successful background `slow_scan` there is no registry entry at
all for the scan id (in particular none with status `completed`), and
after a failing one there is none with status `failed`. -/
theorem C2_registry_never_updated (fs : FileSys) (now : Nat)
    (reg : Registry) (md : ContentMd) (store : Store) :
    (postThenSlowScan fs now reg md store).registry = reg ∧
    List.lookup md.scan_id (postThenSlowScan fs now [] md store).registry =
      none :=
  ⟨rfl, rfl⟩

/-- Claim C3 counterexample: processing the unreadable entry `c3bad`
aborts the scan and persists nothing — the store is exactly as before, so
no snapshot was persisted after the failed entry update, contradicting
"after each entry update, success or failure, the snapshot is
persisted". -/
theorem C3_cex :
    (slow_scan c3fs 50 c3md c3store).err = some "unreadable: /gone" ∧
    (slow_scan c3fs 50 c3md c3store).store = c3store := by
  exact ⟨rfl, rfl⟩

/-- Claim C3 (amended): the report is (re)written only after successful
entry updates; at the end of a run, either no entry was updated and the
store and contents are untouched, or the binding at the report path is
exactly the serialization of the metadata as `slow_scan` left it —
up-to-date for every successfully updated entry, unmodified for all
others (in particular for everything at and after an aborting failure). -/
theorem C3_amended (fs : FileSys) (now : Nat) (md : ContentMd)
    (store : Store) :
    ((slow_scan fs now md store).store = store ∧
     (slow_scan fs now md store).md.contents = md.contents) ∨
    List.lookup (reportPath md) (slow_scan fs now md store).store =
      some (dumpJson (slow_scan fs now md store).md) := by
  have h := slowScanGo_store fs now md md.contents [] store
  simp only [slow_scan]
  rcases h with ⟨hs, hc⟩ | hl
  · exact Or.inl ⟨hs, by rw [hc]; simp⟩
  · exact Or.inr hl

/-- Claim C5 counterexample: a never-checksummed file entry whose
`last_modified` is exactly the epoch is NOT selected (the code compares
strictly), so a complete successful run leaves its `checksum` and
`last_checksum_date` unset — contradicting "every never-checksummed file
is always selected". -/
theorem C5_cex :
    (slow_scan (fun _ => some []) 42 c5md []).md.contents = [c5entry] ∧
    (slow_scan (fun _ => some []) 42 c5md []).err = none ∧
    c5entry.last_checksum_date = none ∧ c5entry.checksum = none := by
  exact ⟨rfl, rfl, rfl, rfl⟩

/-- Claim C5 (amended): every file entry with no `last_checksum_date` and
`last_modified` strictly after the epoch is selected, and in a run that
completes without an exception it ends with both `checksum` (the computed
digest) and `last_checksum_date` (the run timestamp) set. -/
theorem C5_amended (fs : FileSys) (now : Nat) (md : ContentMd)
    (store : Store) (e e2 : Entry)
    (hmem : (e, e2) ∈ md.contents.zip (slow_scan fs now md store).md.contents)
    (hok : (slow_scan fs now md store).err = none)
    (hn : e.last_checksum_date = none)
    (hfile : e.resource_type = "file")
    (hpos : 0 < e.last_modified) :
    ∃ c, calculate_checksum fs e.path "sha256" = .ok c ∧
      e2 = updateEntry now c e ∧ e2.checksum = some c ∧
      e2.last_checksum_date = some now := by
  have h := slow_scan_zip fs now md store e e2 hmem
  have hsel : selectedB e = true := by
    simp [selectedB, hfile, lcdOrEpoch, hn, hpos]
  obtain ⟨c, hc, he⟩ := h.2.2 hok hsel
  exact ⟨c, hc, he, by rw [he]; rfl, by rw [he]; rfl⟩

set_option maxRecDepth 100000 in
/-- Witness for the amended C5 at a concrete readable, never-checksummed
entry: it receives the SHA-256 digest of its (empty) content and the run
timestamp. -/
theorem C5_amended_witness :
    ((c5wentry, updateEntry 42 (sha256hex []) c5wentry) ∈
        c5wmd.contents.zip
          (slow_scan (fun _ => some []) 42 c5wmd []).md.contents ∧
      (slow_scan (fun _ => some []) 42 c5wmd []).err = none ∧
      c5wentry.last_checksum_date = none ∧
      c5wentry.resource_type = "file" ∧ 0 < c5wentry.last_modified) ∧
    (∃ c, calculate_checksum (fun _ => some []) c5wentry.path "sha256" =
        .ok c ∧
      updateEntry 42 (sha256hex []) c5wentry = updateEntry 42 c c5wentry ∧
      (updateEntry 42 (sha256hex []) c5wentry).checksum = some c ∧
      (updateEntry 42 (sha256hex []) c5wentry).last_checksum_date =
        some 42) :=
  ⟨⟨by decide, by decide, rfl, rfl, by decide⟩,
   C5_amended (fun _ => some []) 42 c5wmd []
     c5wentry (updateEntry 42 (sha256hex []) c5wentry)
     (by decide) (by decide) rfl rfl (by decide)⟩

/-- Claim C7: deleting an unknown `scan_id` does return the 404 not-found
outcome, but polling status of an unknown `scan_id` does NOT: the
`KeyError` raised by the registry subscript is swallowed by the generic
`except Exception` handler of `get` and surfaced as a 500
unexpected-error response (the 404 branch of `get` is unreachable for a
missing key).  Neither handler crashes. -/
theorem C7_unknown_scan_id :
    scanFilesGet [] "deadbeef" =
      (.unexpected "KeyError: deadbeef", 500) ∧
    (scanFilesGet [] "deadbeef").2 ≠ 404 ∧
    (scanFilesDelete [] [] "deadbeef").2.1 = 404 := by
  exact ⟨rfl, by decide, rfl⟩

end OarFM
